import Mathlib

/-
Verification of the express-sensible request-context library.

The embedding translates the three source files:
  * src/types.ts / src/context/async-context.ts (RequestContext, getContext,
    runInContext, asyncContext, generateRequestId)
  * src/context/globals.ts  ($app, $req, $res, $config, $logger)
  * src/context/logger.ts   (createLogger / logWithContext)
JavaScript runtime values are modelled by the inductive `JSValue` (with an
explicit `undef` constructor, since `Map.get` of an absent key and a stored
`undefined` are both `undefined`).  JS `Map` and plain-object semantics are
modelled by insertion-ordered association lists; `Date.now()` and
`Math.random()` are ambient effects and are passed in explicitly (a
millisecond timestamp, and the stream of base-36 fraction digits that
`Math.random().toString(36)` produces).
-/

/-- Model of a JavaScript runtime value, with an explicit `undefined`. -/
inductive JSValue where
  | undef : JSValue
  | null : JSValue
  | boolean : Bool → JSValue
  | number : Int → JSValue
  | string : String → JSValue
deriving DecidableEq, Repr

/-- Property read on a JS object / `Map.get`, as `Option` (`none` = key absent). -/
def objGet (o : List (String × JSValue)) (k : String) : Option JSValue :=
  (o.find? (fun p => p.1 == k)).map (fun p => p.2)

/-- Key-existence test on a JS object / `Map.has`. -/
def objHas (o : List (String × JSValue)) (k : String) : Bool :=
  o.any (fun p => p.1 == k)

/-- Property write on a JS object / `Map.set`: overwrites in place if the key
exists (preserving insertion order), otherwise appends. -/
def objSet : List (String × JSValue) → String → JSValue → List (String × JSValue)
  | [], k, v => [(k, v)]
  | p :: rest, k, v => if p.1 == k then (k, v) :: rest else p :: objSet rest k v

/-- JS object spread `{...base, ...meta}` restricted to its use in the source:
the entries of `meta` written over `base` one after the other. -/
def objSpread (base : List (String × JSValue)) : List (String × JSValue) → List (String × JSValue)
  | [] => base
  | p :: rest => objSpread (objSet base p.1 p.2) rest

/-- Entry removal, `Map.delete`'s effect on the store. -/
def mapDelete (m : List (String × JSValue)) (k : String) : List (String × JSValue) :=
  m.filter (fun p => p.1 != k)

/-- Opaque handle for an Express `Application`. -/
structure Application where
  id : Nat
deriving DecidableEq, Repr

/-- The request socket, only its `remoteAddress` is read by the source. -/
structure Socket where
  remoteAddress : Option String
deriving DecidableEq, Repr

/-- The fields of an Express `Request` that the source reads: `method`, `url`,
`ip` (possibly unavailable), `socket`, `headers`, and `app`. -/
structure Request where
  method : String
  url : String
  ip : Option String
  socket : Socket
  headers : List (String × String)
  app : Application
deriving DecidableEq, Repr

/-- Opaque handle for an Express `Response`. -/
structure Response where
  id : Nat
deriving DecidableEq, Repr

/-- `AppConfig`: an open string-keyed mapping (`interface AppConfig` in types.ts). -/
abbrev AppConfig := List (String × JSValue)

/-- Lookup of `req.headers[name]` (`none` models `undefined`). -/
def headerGet (req : Request) (name : String) : Option String :=
  (req.headers.find? (fun p => p.1 == name)).map (fun p => p.2)

/-- The logger built by `createLogger(requestId, req)`: a pair of captured
closure variables; its four methods are defined below. -/
structure Logger where
  requestId : String
  req : Request
deriving DecidableEq, Repr

/-- Which console sink the `switch (level)` in `logWithContext` selects;
`log` is the `default:` branch. -/
inductive Sink where
  | debug | info | warn | error | log
deriving DecidableEq, Repr

/-- The `switch (level)` dispatch in logger.ts lines 29-44. -/
def dispatchSink (level : String) : Sink :=
  if level == "debug" then Sink.debug
  else if level == "info" then Sink.info
  else if level == "warn" then Sink.warn
  else if level == "error" then Sink.error
  else Sink.log

/-- JS `a || b` on strings-or-undefined: falls through on `undefined` and on
the falsy empty string. -/
def jsOrString (a b : Option String) : Option String :=
  match a with
  | some s => if s == "" then b else some s
  | none => b

/-- Coercion of a string-or-undefined into a `JSValue` record field. -/
def optToJS : Option String → JSValue
  | some s => JSValue.string s
  | none => JSValue.undef

/-- JS `String.prototype.toUpperCase()` restricted to its use in the source,
character-wise uppercasing. -/
def jsToUpperCase (s : String) : String :=
  String.mk (s.data.map Char.toUpper)

/-- One emission of `logWithContext`: the console sink chosen, the
human-readable line, and the structured record (the `context` object). -/
structure LogEvent where
  sink : Sink
  line : String
  record : List (String × JSValue)
deriving DecidableEq, Repr

/-- The inner `logWithContext(level, message, meta)` of logger.ts, with the
captured `timestamp` passed explicitly. -/
def Logger.logWithContext (l : Logger) (level message : String)
    (meta : List (String × JSValue)) (timestamp : String) : LogEvent :=
  let context : List (String × JSValue) :=
    objSpread
      [("timestamp", JSValue.string timestamp),
       ("requestId", JSValue.string l.requestId),
       ("method", JSValue.string l.req.method),
       ("url", JSValue.string l.req.url),
       ("ip", optToJS (jsOrString l.req.ip l.req.socket.remoteAddress))]
      meta
  { sink := dispatchSink level
    line := "[" ++ timestamp ++ "] [" ++ jsToUpperCase level ++ "] [" ++ l.requestId ++ "] " ++ message
    record := context }

/-- The `debug` method returned by `createLogger`. -/
def Logger.debug (l : Logger) (message : String) (meta : List (String × JSValue))
    (timestamp : String) : LogEvent :=
  l.logWithContext "debug" message meta timestamp

/-- The `info` method returned by `createLogger`. -/
def Logger.info (l : Logger) (message : String) (meta : List (String × JSValue))
    (timestamp : String) : LogEvent :=
  l.logWithContext "info" message meta timestamp

/-- The `warn` method returned by `createLogger`. -/
def Logger.warn (l : Logger) (message : String) (meta : List (String × JSValue))
    (timestamp : String) : LogEvent :=
  l.logWithContext "warn" message meta timestamp

/-- The `error` method returned by `createLogger`. -/
def Logger.error (l : Logger) (message : String) (meta : List (String × JSValue))
    (timestamp : String) : LogEvent :=
  l.logWithContext "error" message meta timestamp

/-- `createLogger(requestId, req)` from logger.ts. -/
def createLogger (requestId : String) (req : Request) : Logger :=
  { requestId := requestId, req := req }

/-- The `RequestContextData` stored by a `RequestContext` (types.ts). -/
structure RequestContext where
  app : Application
  req : Request
  res : Response
  config : AppConfig
  logger : Logger
  requestId : String
  startTime : Nat
  metadata : List (String × JSValue)
deriving DecidableEq, Repr

/-- The `RequestContext` constructor: captures the handles, builds the logger
via `createLogger(requestId, req)`, records `Date.now()` (passed as `now`),
and starts with an empty metadata map. -/
def RequestContext.make (app : Application) (req : Request) (res : Response)
    (config : AppConfig) (requestId : String) (now : Nat) : RequestContext :=
  { app := app, req := req, res := res, config := config
    logger := createLogger requestId req
    requestId := requestId, startTime := now, metadata := [] }

/-- The `elapsedTime` getter: `Date.now() - this.data.startTime`, with the
current `Date.now()` passed explicitly. -/
def RequestContext.elapsedTime (c : RequestContext) (now : Nat) : Int :=
  (now : Int) - (c.startTime : Int)

/-- `setMetadata(key, value)`: `this.data.metadata.set(key, value)`. -/
def RequestContext.setMetadata (c : RequestContext) (k : String) (v : JSValue) :
    RequestContext :=
  { c with metadata := objSet c.metadata k v }

/-- `getMetadata(key)`: `this.data.metadata.get(key)`, which is `undefined`
both for an absent key and for a stored `undefined`. -/
def RequestContext.getMetadata (c : RequestContext) (k : String) : JSValue :=
  (objGet c.metadata k).getD JSValue.undef

/-- `hasMetadata(key)`: `this.data.metadata.has(key)`. -/
def RequestContext.hasMetadata (c : RequestContext) (k : String) : Bool :=
  objHas c.metadata k

/-- `deleteMetadata(key)`: `this.data.metadata.delete(key)`, returning the
updated context together with the Boolean `Map.delete` result. -/
def RequestContext.deleteMetadata (c : RequestContext) (k : String) :
    RequestContext × Bool :=
  ({ c with metadata := mapDelete c.metadata k }, objHas c.metadata k)

/-- `getAllMetadata()`: `Object.fromEntries(this.data.metadata)` as a value
(the reference-semantics copy is modelled separately with `Heap`). -/
def RequestContext.getAllMetadata (c : RequestContext) : List (String × JSValue) :=
  c.metadata

/-- `clearMetadata()`: `this.data.metadata.clear()`. -/
def RequestContext.clearMetadata (c : RequestContext) : RequestContext :=
  { c with metadata := [] }

/-- The `AsyncLocalStorage` binding visible at a point of execution: either
the context bound by the innermost enclosing `run`, or `none`.  Scoped
storage guarantees a chain observes exactly this environment, so a
computation is embedded as a function of it. -/
abbrev Env := Option RequestContext

/-- `getContext()`: `asyncLocalStorage.getStore()`, the current binding. -/
def getContext (env : Env) : Env :=
  env

/-- `runInContext(context, fn)`: `asyncLocalStorage.run(context, fn)` binds
`context` as the environment for the whole dynamic extent of `fn`. -/
def runInContext {T : Type} (context : RequestContext) (fn : Env → T) : T :=
  fn (some context)

/-- A chain of execution steps, recording each `getContext()` observation:
`observe` reads the current binding, `run` is `runInContext`, `seq` is
sequential composition of steps. -/
inductive Chain where
  | observe : Chain
  | run : RequestContext → Chain → Chain
  | seq : Chain → Chain → Chain

/-- The list of `getContext()` results observed while executing a chain
under a given ambient binding. -/
def observations (env : Env) : Chain → List Env
  | Chain.observe => [getContext env]
  | Chain.run c p => runInContext c (fun inner => observations inner p)
  | Chain.seq p q => observations env p ++ observations env q

/-- `$app()` from globals.ts: throws (here `Except.error`) without a context. -/
def dollarApp (env : Env) : Except String Application :=
  match getContext env with
  | none => Except.error "$app() can only be called within a request context"
  | some context => Except.ok context.app

/-- `$req()` from globals.ts. -/
def dollarReq (env : Env) : Except String Request :=
  match getContext env with
  | none => Except.error "$req() can only be called within a request context"
  | some context => Except.ok context.req

/-- `$res()` from globals.ts. -/
def dollarRes (env : Env) : Except String Response :=
  match getContext env with
  | none => Except.error "$res() can only be called within a request context"
  | some context => Except.ok context.res

/-- `$config()` from globals.ts. -/
def dollarConfig (env : Env) : Except String AppConfig :=
  match getContext env with
  | none => Except.error "$config() can only be called within a request context"
  | some context => Except.ok context.config

/-- `$logger()` from globals.ts. -/
def dollarLogger (env : Env) : Except String Logger :=
  match getContext env with
  | none => Except.error "$logger() can only be called within a request context"
  | some context => Except.ok context.logger

/-- The character `Number.prototype.toString(36)` uses for one base-36
digit: `0`-`9` then `a`-`z`. -/
def base36Char (d : Nat) : Char :=
  let m := d % 36
  if m < 10 then Char.ofNat (48 + m) else Char.ofNat (97 + (m - 10))

/-- The `Math.random().toString(36).substring(2, 11)` suffix, with the
random fraction given as its stream of base-36 digits: `substring(2, 11)`
keeps at most the first nine digits after the leading `0.`. -/
def randomSuffix (randomDigits : List Nat) : String :=
  String.mk ((randomDigits.take 9).map base36Char)

/-- `generateRequestId()`: the template `req_<Date.now()>_<random suffix>`,
with the ambient time and random digits passed explicitly. -/
def generateRequestId (now : Nat) (randomDigits : List Nat) : String :=
  "req_" ++ toString now ++ "_" ++ randomSuffix randomDigits

/-- The `requestId` computed by the `asyncContext` middleware:
`req.headers[..] || generateRequestId()` (JS `||` also rejects the empty
string). -/
def asyncContextRequestId (req : Request) (now : Nat) (randomDigits : List Nat) : String :=
  match headerGet req "x-request-id" with
  | some h => if h == "" then generateRequestId now randomDigits else h
  | none => generateRequestId now randomDigits

/-- The context the `asyncContext(config)` middleware constructs and binds
for one inbound request: `new RequestContext(req.app, req, res, config,
requestId)`. -/
def asyncContext (config : AppConfig) (req : Request) (res : Response)
    (now : Nat) (randomDigits : List Nat) : RequestContext :=
  RequestContext.make req.app req res config
    (asyncContextRequestId req now randomDigits) now

/-- A heap of JS objects addressed by reference, for the parts of the source
where object identity matters (`Object.fromEntries` allocates a fresh
object). -/
structure Heap where
  objects : List (List (String × JSValue))
deriving DecidableEq, Repr

/-- Dereference: the object stored at a reference. -/
def Heap.read (h : Heap) (r : Nat) : List (String × JSValue) :=
  (h.objects.get? r).getD []

/-- Overwrite the object stored at a reference. -/
def Heap.write (h : Heap) (r : Nat) (o : List (String × JSValue)) : Heap :=
  ⟨h.objects.set r o⟩

/-- Allocate a fresh object, returning the new heap and the fresh reference. -/
def Heap.alloc (h : Heap) (o : List (String × JSValue)) : Heap × Nat :=
  (⟨h.objects ++ [o]⟩, h.objects.length)

/-- `getAllMetadata()` under reference semantics: `Object.fromEntries(map)`
copies the entries of the live store (at reference `mref`) into a freshly
allocated object and returns its reference. -/
def getAllMetadataRef (h : Heap) (mref : Nat) : Heap × Nat :=
  h.alloc (h.read mref)

/-- One mutation a caller can apply to a JS object it holds a reference to. -/
inductive ObjMutation where
  | set : String → JSValue → ObjMutation
  | remove : String → ObjMutation
deriving DecidableEq, Repr

/-- Apply one mutation to the object at reference `r`. -/
def applyMutation (h : Heap) (r : Nat) : ObjMutation → Heap
  | ObjMutation.set k v => h.write r (objSet (h.read r) k v)
  | ObjMutation.remove k => h.write r (mapDelete (h.read r) k)

/-- Apply a sequence of mutations to the object at reference `r`. -/
def applyMutations (h : Heap) (r : Nat) : List ObjMutation → Heap
  | [] => h
  | m :: rest => applyMutations (applyMutation h r m) r rest

/-- The mutating operations `RequestContext` exposes (the read-only
accessors return no new context and are omitted as operations). -/
inductive CtxOp where
  | setMeta : String → JSValue → CtxOp
  | deleteMeta : String → CtxOp
  | clearMeta : CtxOp
deriving DecidableEq, Repr

/-- Apply one context operation. -/
def applyCtxOp (c : RequestContext) : CtxOp → RequestContext
  | CtxOp.setMeta k v => c.setMetadata k v
  | CtxOp.deleteMeta k => (c.deleteMetadata k).1
  | CtxOp.clearMeta => c.clearMetadata

/-- Apply a sequence of context operations. -/
def applyCtxOps (c : RequestContext) : List CtxOp → RequestContext
  | [] => c
  | op :: rest => applyCtxOps (applyCtxOp c op) rest

/-- Sample Express application handle, for witnesses. -/
def sampleApp : Application :=
  ⟨0⟩

/-- Sample request, for witnesses. -/
def sampleReq : Request :=
  { method := "GET", url := "/", ip := some "127.0.0.1"
    socket := ⟨some "127.0.0.1"⟩, headers := [], app := sampleApp }

/-- Sample request carrying an `x-request-id` header, for witnesses. -/
def sampleReqWithHeader : Request :=
  { sampleReq with headers := [("x-request-id", "abc123")] }

/-- Sample response handle, for witnesses. -/
def sampleRes : Response :=
  ⟨0⟩

/-- Sample request context, for witnesses. -/
def sampleContext : RequestContext :=
  RequestContext.make sampleApp sampleReq sampleRes [] "req-1" 1000

/-- Second sample request context, for witnesses. -/
def sampleContextB : RequestContext :=
  RequestContext.make sampleApp sampleReq sampleRes [] "req-2" 2000

/-- Whether a character is one of the base-36 digit characters `0`-`9`,
`a`-`z` (the alphanumeric alphabet of generated id suffixes). -/
def isBase36Digit (c : Char) : Bool :=
  (48 ≤ c.toNat && c.toNat ≤ 57) || (97 ≤ c.toNat && c.toNat ≤ 122)

/-- The documented generated-identifier format
`req_<millisecond-timestamp>_<random-alphanumeric-suffix>`. -/
def matchesGeneratedIdFormat (s : String) : Prop :=
  ∃ (ts : Nat) (suffix : String),
    s = "req_" ++ toString ts ++ "_" ++ suffix ∧ suffix.data.all isBase36Digit = true

/-- The enrichment contract of one structured log record: each standard key
(timestamp, requestId, method, url, ip with its socket fallback) is present
with its standard value unless the caller attachment supplies that key, and
every attachment entry wins over the standard entries. -/
def recordEnriched (l : Logger) (ts : String) (meta record : List (String × JSValue)) : Prop :=
  (objGet meta "timestamp" = none → objGet record "timestamp" = some (JSValue.string ts)) ∧
  (objGet meta "requestId" = none → objGet record "requestId" = some (JSValue.string l.requestId)) ∧
  (objGet meta "method" = none → objGet record "method" = some (JSValue.string l.req.method)) ∧
  (objGet meta "url" = none → objGet record "url" = some (JSValue.string l.req.url)) ∧
  (objGet meta "ip" = none →
    objGet record "ip" = some (optToJS (jsOrString l.req.ip l.req.socket.remoteAddress))) ∧
  ((meta.map Prod.fst).Nodup → ∀ k v, objGet meta k = some v → objGet record k = some v)

/-- Sample one-object heap, for witnesses. -/
def sampleHeap : Heap :=
  ⟨[[("a", JSValue.number 1)]]⟩

/-- Unfolding lemma: object lookup on a cons cell. -/
theorem objGet_cons (p : String × JSValue) (rest : List (String × JSValue)) (k : String) :
    objGet (p :: rest) k = if p.1 == k then some p.2 else objGet rest k := by
  simp only [objGet, List.find?_cons]
  split <;> simp_all

/-- Unfolding lemma: key-existence on a cons cell. -/
theorem objHas_cons (p : String × JSValue) (rest : List (String × JSValue)) (k : String) :
    objHas (p :: rest) k = (p.1 == k || objHas rest k) := by
  simp [objHas, List.any_cons]

/-- Reading back the key just written returns the written value. -/
theorem objGet_objSet_self (o : List (String × JSValue)) (k : String) (v : JSValue) :
    objGet (objSet o k v) k = some v := by
  induction o with
  | nil => simp [objSet, objGet_cons]
  | cons p rest ih =>
    by_cases h : p.1 = k
    · simp [objSet, h, objGet_cons]
    · simp [objSet, h, objGet_cons, ih]

/-- Writing one key leaves every other key's lookup unchanged. -/
theorem objGet_objSet_ne (o : List (String × JSValue)) (k j : String) (v : JSValue)
    (h : j ≠ k) : objGet (objSet o k v) j = objGet o j := by
  induction o with
  | nil => simp [objSet, objGet_cons, objGet, Ne.symm h]
  | cons p rest ih =>
    by_cases hp : p.1 = k
    · simp [objSet, hp, objGet_cons, Ne.symm h]
    · simp [objSet, hp, objGet_cons, ih]

/-- The key just written exists. -/
theorem objHas_objSet_self (o : List (String × JSValue)) (k : String) (v : JSValue) :
    objHas (objSet o k v) k = true := by
  induction o with
  | nil => simp [objSet, objHas_cons]
  | cons p rest ih =>
    by_cases h : p.1 = k
    · simp [objSet, h, objHas_cons]
    · simp [objSet, h, objHas_cons, ih]

/-- An absent key looks up to `none`. -/
theorem objGet_eq_none_of_not_has (o : List (String × JSValue)) (k : String)
    (h : objHas o k = false) : objGet o k = none := by
  induction o with
  | nil => rfl
  | cons p rest ih =>
    rw [objHas_cons] at h
    simp only [Bool.or_eq_false_iff] at h
    rw [objGet_cons, h.1]
    exact ih h.2

/-- After deletion the deleted key no longer exists. -/
theorem objHas_mapDelete_self (m : List (String × JSValue)) (k : String) :
    objHas (mapDelete m k) k = false := by
  induction m with
  | nil => rfl
  | cons p rest ih =>
    by_cases h : p.1 = k
    · simpa [mapDelete, h] using ih
    · simp [mapDelete, h, objHas_cons]
      simpa [mapDelete] using ih

/-- A key outside the key list looks up to `none`. -/
theorem objGet_eq_none_of_not_mem (m : List (String × JSValue)) (k : String)
    (h : k ∉ m.map Prod.fst) : objGet m k = none := by
  induction m with
  | nil => rfl
  | cons p rest ih =>
    simp only [List.map_cons, List.mem_cons, not_or] at h
    rw [objGet_cons]
    have : (p.1 == k) = false := by simp [h.1, Ne.symm h.1]
    rw [this]
    exact ih h.2

/-- Spreading an attachment that lacks a key leaves that key's lookup at its
base value. -/
theorem objGet_objSpread_none (meta : List (String × JSValue)) (k : String) :
    ∀ base, objGet meta k = none → objGet (objSpread base meta) k = objGet base k := by
  induction meta with
  | nil => intro base _; rfl
  | cons p rest ih =>
    intro base h
    rw [objGet_cons] at h
    by_cases hp : p.1 = k
    · simp [hp] at h
    · simp only [objSpread]
      rw [ih (objSet base p.1 p.2) (by simpa [hp] using h)]
      exact objGet_objSet_ne base p.1 k p.2 (Ne.symm hp)

/-- Spreading an attachment writes each of its (distinct) keys over the base. -/
theorem objGet_objSpread_some (meta : List (String × JSValue)) (k : String) (v : JSValue) :
    ∀ base, (meta.map Prod.fst).Nodup → objGet meta k = some v →
      objGet (objSpread base meta) k = some v := by
  induction meta with
  | nil => intro base _ h; simp [objGet] at h
  | cons p rest ih =>
    intro base hnd h
    simp only [List.map_cons, List.nodup_cons] at hnd
    rw [objGet_cons] at h
    by_cases hp : p.1 = k
    · subst hp
      simp only [beq_self_eq_true, if_pos] at h
      obtain rfl : p.2 = v := by simpa using h
      simp only [objSpread]
      have hrest : objGet rest p.1 = none :=
        objGet_eq_none_of_not_mem rest p.1 hnd.1
      rw [objGet_objSpread_none rest p.1 (objSet base p.1 p.2) hrest]
      exact objGet_objSet_self base p.1 p.2
    · simp only [beq_iff_eq, hp, if_neg, if_false] at h
      exact ih (objSet base p.1 p.2) hnd.2 h

/-- Writing one heap cell leaves every other cell unchanged. -/
theorem Heap.read_write_ne (h : Heap) (r s : Nat) (o : List (String × JSValue))
    (hne : r ≠ s) : (h.write s o).read r = h.read r := by
  simp only [Heap.read, Heap.write]
  rw [List.get?_eq_getElem?, List.get?_eq_getElem?, List.getElem?_set_ne (Ne.symm hne)]

/-- Allocation leaves every already-valid cell unchanged. -/
theorem Heap.read_alloc (h : Heap) (o : List (String × JSValue)) (r : Nat)
    (hr : r < h.objects.length) : (h.alloc o).1.read r = h.read r := by
  simp only [Heap.read, Heap.alloc]
  rw [List.get?_eq_getElem?, List.get?_eq_getElem?, List.getElem?_append_left hr]

/-- A sequence of mutations through one reference leaves every other cell
unchanged. -/
theorem read_applyMutations_ne (ms : List ObjMutation) :
    ∀ (h : Heap) (r s : Nat), r ≠ s → (applyMutations h s ms).read r = h.read r := by
  induction ms with
  | nil => intro h r s _; rfl
  | cons m rest ih =>
    intro h r s hne
    have hstep : (applyMutation h s m).read r = h.read r := by
      cases m <;> exact Heap.read_write_ne _ _ _ _ hne
    calc (applyMutations (applyMutation h s m) s rest).read r
        = (applyMutation h s m).read r := ih _ r s hne
      _ = h.read r := hstep

/-- Cancellation of a common prefix of two equal strings. -/
theorem string_append_left_cancel (p s₁ s₂ : String) (h : p ++ s₁ = p ++ s₂) :
    s₁ = s₂ := by
  have hd := congrArg String.data h
  simp [String.data_append] at hd
  cases s₁; cases s₂; simp_all

/-- Every character `toString(36)` produces is alphanumeric. -/
theorem isBase36Digit_base36Char (d : Nat) : isBase36Digit (base36Char d) = true := by
  have h36 : d % 36 < 36 := Nat.mod_lt _ (by norm_num)
  unfold base36Char
  generalize hm : d % 36 = m at h36 ⊢
  interval_cases m <;> decide

/-- Step lemma for the frame property: one mutating context operation
touches only the metadata field. -/
theorem applyCtxOp_frame (c : RequestContext) (op : CtxOp) :
    (applyCtxOp c op).requestId = c.requestId ∧
    (applyCtxOp c op).startTime = c.startTime ∧
    (applyCtxOp c op).app = c.app ∧
    (applyCtxOp c op).req = c.req ∧
    (applyCtxOp c op).res = c.res ∧
    (applyCtxOp c op).config = c.config ∧
    (applyCtxOp c op).logger = c.logger := by
  cases op <;> exact ⟨rfl, rfl, rfl, rfl, rfl, rfl, rfl⟩

/-- Claim C1: each of the five global accessors calls `getContext()`; with no
bound context it fails with an error message identifying that specific
accessor, and with a bound context it returns exactly the corresponding
field of the current `RequestContext`, never a fabricated default. -/
theorem globalAccessors_contract (env : Env) :
    (env = none →
      dollarApp env = Except.error "$app() can only be called within a request context" ∧
      dollarReq env = Except.error "$req() can only be called within a request context" ∧
      dollarRes env = Except.error "$res() can only be called within a request context" ∧
      dollarConfig env = Except.error "$config() can only be called within a request context" ∧
      dollarLogger env = Except.error "$logger() can only be called within a request context") ∧
    (∀ c, env = some c →
      dollarApp env = Except.ok c.app ∧
      dollarReq env = Except.ok c.req ∧
      dollarRes env = Except.ok c.res ∧
      dollarConfig env = Except.ok c.config ∧
      dollarLogger env = Except.ok c.logger) := by
  constructor
  · rintro rfl
    exact ⟨rfl, rfl, rfl, rfl, rfl⟩
  · rintro c rfl
    exact ⟨rfl, rfl, rfl, rfl, rfl⟩

/-- Witness for C1 at concrete inputs: the absent-context error of `$app` and
the bound-context projection of `$logger`. -/
theorem globalAccessors_contract_witness :
    dollarApp none = Except.error "$app() can only be called within a request context" ∧
    dollarLogger (some sampleContext) = Except.ok sampleContext.logger :=
  ⟨((globalAccessors_contract none).1 rfl).1,
   ((globalAccessors_contract (some sampleContext)).2 sampleContext rfl).2.2.2.2⟩

/-- Claim C2: a nested `runInContext(B, g)` inside `runInContext(A, fn)` makes
`getContext()` return B for the dynamic extent of g, after which the
remaining extent of the outer run observes A again; along any chain every
observation sees the single binding of the innermost enclosing run (or none),
in strict LIFO fashion. -/
theorem runInContext_nesting (A B : RequestContext) (env : Env) (p q : Chain) :
    (runInContext A (fun outer =>
        (runInContext B (fun inner => getContext inner), getContext outer))
      = (some B, some A)) ∧
    observations env (Chain.run A (Chain.seq (Chain.run B p) q))
      = observations (some B) p ++ observations (some A) q ∧
    observations env (Chain.run A (Chain.seq (Chain.run B Chain.observe) Chain.observe))
      = [some B, some A] :=
  ⟨rfl, rfl, rfl⟩

/-- Claim C4: metadata round-trip — a set is observable by get and has, a
delete of a present key answers true and removes it, a delete of an absent
key answers false, and a second set overwrites. -/
theorem metadata_roundtrip (c : RequestContext) (k : String) (v w : JSValue) :
    (c.setMetadata k v).getMetadata k = v ∧
    (c.setMetadata k v).hasMetadata k = true ∧
    (c.hasMetadata k = true →
      (c.deleteMetadata k).2 = true ∧ (c.deleteMetadata k).1.hasMetadata k = false) ∧
    (c.hasMetadata k = false → (c.deleteMetadata k).2 = false) ∧
    ((c.setMetadata k v).setMetadata k w).getMetadata k = w := by
  refine ⟨?_, ?_, fun h => ⟨h, ?_⟩, fun h => h, ?_⟩
  · simp [RequestContext.setMetadata, RequestContext.getMetadata, objGet_objSet_self]
  · simp [RequestContext.setMetadata, RequestContext.hasMetadata, objHas_objSet_self]
  · simpa [RequestContext.deleteMetadata, RequestContext.hasMetadata]
      using objHas_mapDelete_self c.metadata k
  · simp [RequestContext.setMetadata, RequestContext.getMetadata, objGet_objSet_self]

/-- Witness for C4 at concrete inputs: round-trip on `sampleContext` with key
`k`, both delete branches included. -/
theorem metadata_roundtrip_witness :
    (sampleContext.setMetadata "k" (JSValue.number 1)).getMetadata "k" = JSValue.number 1 ∧
    ((sampleContext.setMetadata "k" (JSValue.number 1)).deleteMetadata "k").2 = true ∧
    ((sampleContext.setMetadata "k" (JSValue.number 1)).deleteMetadata "k").1.hasMetadata "k"
      = false ∧
    (sampleContext.deleteMetadata "missing").2 = false := by
  refine ⟨(metadata_roundtrip sampleContext "k" (JSValue.number 1) (JSValue.number 1)).1,
    ?_, ?_, ?_⟩
  · exact ((metadata_roundtrip (sampleContext.setMetadata "k" (JSValue.number 1)) "k"
      (JSValue.number 1) (JSValue.number 1)).2.2.1 (by decide)).1
  · exact ((metadata_roundtrip (sampleContext.setMetadata "k" (JSValue.number 1)) "k"
      (JSValue.number 1) (JSValue.number 1)).2.2.1 (by decide)).2
  · exact (metadata_roundtrip sampleContext "missing" (JSValue.number 1)
      (JSValue.number 1)).2.2.2.1 (by decide)

/-- Claim C7: `elapsedTime` is recomputed on each access as the current time
minus `startTime`, and two reads separated by a delay are ordered: the later
read is at least the earlier one. -/
theorem elapsedTime_monotone (c : RequestContext) (n₁ n₂ : Nat) (h : n₁ ≤ n₂) :
    c.elapsedTime n₁ = (n₁ : Int) - (c.startTime : Int) ∧
    c.elapsedTime n₁ ≤ c.elapsedTime n₂ := by
  refine ⟨rfl, ?_⟩
  unfold RequestContext.elapsedTime
  omega

/-- Witness for C7 at concrete inputs. -/
theorem elapsedTime_monotone_witness :
    sampleContext.elapsedTime 1200 = (1200 : Int) - (sampleContext.startTime : Int) ∧
    sampleContext.elapsedTime 1200 ≤ sampleContext.elapsedTime 1500 :=
  elapsedTime_monotone sampleContext 1200 1500 (by decide)

/-- Claim C8: after any sequence of mutating context operations, every field
other than metadata (requestId, startTime, app, req, res, config, logger) is
identical to its value at construction — metadata is the only field the
context itself mutates. -/
theorem context_frame_only_metadata (c : RequestContext) (ops : List CtxOp) :
    (applyCtxOps c ops).requestId = c.requestId ∧
    (applyCtxOps c ops).startTime = c.startTime ∧
    (applyCtxOps c ops).app = c.app ∧
    (applyCtxOps c ops).req = c.req ∧
    (applyCtxOps c ops).res = c.res ∧
    (applyCtxOps c ops).config = c.config ∧
    (applyCtxOps c ops).logger = c.logger := by
  induction ops generalizing c with
  | nil => exact ⟨rfl, rfl, rfl, rfl, rfl, rfl, rfl⟩
  | cons op rest ih =>
    obtain ⟨s1, s2, s3, s4, s5, s6, s7⟩ := applyCtxOp_frame c op
    obtain ⟨r1, r2, r3, r4, r5, r6, r7⟩ := ih (applyCtxOp c op)
    exact ⟨r1.trans s1, r2.trans s2, r3.trans s3, r4.trans s4,
      r5.trans s5, r6.trans s6, r7.trans s7⟩

/-- Claim C9: storing `undefined` under a key makes `hasMetadata` true while
`getMetadata` returns `undefined` — exactly what `getMetadata` returns for a
key that was never stored — so only `hasMetadata` separates the two. -/
theorem setMetadata_undefined_indistinguishable (c : RequestContext) (k : String) :
    (c.setMetadata k JSValue.undef).hasMetadata k = true ∧
    (c.setMetadata k JSValue.undef).getMetadata k = JSValue.undef ∧
    (c.hasMetadata k = false → c.getMetadata k = JSValue.undef) := by
  refine ⟨?_, ?_, fun h => ?_⟩
  · simp [RequestContext.setMetadata, RequestContext.hasMetadata, objHas_objSet_self]
  · simp [RequestContext.setMetadata, RequestContext.getMetadata, objGet_objSet_self]
  · simp [RequestContext.getMetadata, objGet_eq_none_of_not_has c.metadata k h]

/-- Witness for C9 at concrete inputs. -/
theorem setMetadata_undefined_indistinguishable_witness :
    (sampleContext.setMetadata "x" JSValue.undef).hasMetadata "x" = true ∧
    (sampleContext.setMetadata "x" JSValue.undef).getMetadata "x" = JSValue.undef ∧
    sampleContext.getMetadata "x" = JSValue.undef := by
  refine ⟨(setMetadata_undefined_indistinguishable sampleContext "x").1,
    (setMetadata_undefined_indistinguishable sampleContext "x").2.1,
    (setMetadata_undefined_indistinguishable sampleContext "x").2.2 (by decide)⟩

/-- Claim C10: each of the four logger operations passes one of the fixed
level strings, each matched by an explicit switch case, so the `default:`
branch (console.log) is unreachable from them. -/
theorem logger_dispatch_default_unreachable (l : Logger) (message : String)
    (meta : List (String × JSValue)) (ts : String) :
    (l.debug message meta ts).sink = Sink.debug ∧
    (l.info message meta ts).sink = Sink.info ∧
    (l.warn message meta ts).sink = Sink.warn ∧
    (l.error message meta ts).sink = Sink.error ∧
    (l.debug message meta ts).sink ≠ Sink.log ∧
    (l.info message meta ts).sink ≠ Sink.log ∧
    (l.warn message meta ts).sink ≠ Sink.log ∧
    (l.error message meta ts).sink ≠ Sink.log := by
  have hd : (l.debug message meta ts).sink = Sink.debug := rfl
  have hi : (l.info message meta ts).sink = Sink.info := rfl
  have hw : (l.warn message meta ts).sink = Sink.warn := rfl
  have he : (l.error message meta ts).sink = Sink.error := rfl
  refine ⟨hd, hi, hw, he, ?_, ?_, ?_, ?_⟩
  · rw [hd]; decide
  · rw [hi]; decide
  · rw [hw]; decide
  · rw [he]; decide

/-- Claim C3: the `asyncContext` adapter adopts a present non-empty
`x-request-id` header verbatim as the constructed context's requestId;
otherwise (header absent, or present but empty) the requestId is the
generated one, which matches `req_<millisecond-timestamp>_<alphanumeric
suffix>`; and for one millisecond, ids generated from differing random
suffixes are distinct. -/
theorem asyncContext_requestId_spec (config : AppConfig) (req : Request) (res : Response)
    (now : Nat) (ds ds₂ : List Nat) :
    (∀ h, headerGet req "x-request-id" = some h → h ≠ "" →
      (asyncContext config req res now ds).requestId = h) ∧
    (headerGet req "x-request-id" = some "" →
      (asyncContext config req res now ds).requestId = generateRequestId now ds) ∧
    (headerGet req "x-request-id" = none →
      (asyncContext config req res now ds).requestId = generateRequestId now ds) ∧
    matchesGeneratedIdFormat (generateRequestId now ds) ∧
    (randomSuffix ds ≠ randomSuffix ds₂ →
      generateRequestId now ds ≠ generateRequestId now ds₂) := by
  refine ⟨?_, ?_, ?_, ?_, ?_⟩
  · intro h hh hne
    simp [asyncContext, RequestContext.make, asyncContextRequestId, hh, hne]
  · intro hh
    simp [asyncContext, RequestContext.make, asyncContextRequestId, hh]
  · intro hh
    simp [asyncContext, RequestContext.make, asyncContextRequestId, hh]
  · refine ⟨now, randomSuffix ds, rfl, ?_⟩
    show ((ds.take 9).map base36Char).all isBase36Digit = true
    rw [List.all_eq_true]
    intro c hc
    obtain ⟨d, _, rfl⟩ := List.mem_map.mp hc
    exact isBase36Digit_base36Char d
  · intro hne he
    unfold generateRequestId at he
    exact hne (string_append_left_cancel _ _ _ he)

/-- Witness for C3 at concrete inputs: header `abc123` adopted verbatim, an
absent header yielding the generated id, and two same-millisecond ids from
different random digits being distinct. -/
theorem asyncContext_requestId_spec_witness :
    (asyncContext [] sampleReqWithHeader sampleRes 5 [0]).requestId = "abc123" ∧
    (asyncContext [] sampleReq sampleRes 5 [0]).requestId = generateRequestId 5 [0] ∧
    matchesGeneratedIdFormat (generateRequestId 5 [0]) ∧
    generateRequestId 5 [0] ≠ generateRequestId 5 [1] := by
  refine ⟨(asyncContext_requestId_spec [] sampleReqWithHeader sampleRes 5 [0] []).1
      "abc123" (by decide) (by decide),
    (asyncContext_requestId_spec [] sampleReq sampleRes 5 [0] []).2.2.1 (by decide),
    (asyncContext_requestId_spec [] sampleReq sampleRes 5 [0] []).2.2.2.1,
    (asyncContext_requestId_spec [] sampleReq sampleRes 5 [0] [1]).2.2.2.2 (by decide)⟩

/-- Claim C5: every logger level operation emits the structured record
`{timestamp, requestId, method, url, ip, ...attachment}` — with the ip
falling back to the socket's remote address and attachment keys overriding
standard keys on collision — together with the human-readable line
`[<timestamp>] [<LEVEL>] [<requestId>] <message>`. -/
theorem logger_emission_shape (l : Logger) (message ts : String)
    (meta : List (String × JSValue)) :
    recordEnriched l ts meta (l.debug message meta ts).record ∧
    (l.info message meta ts).record = (l.debug message meta ts).record ∧
    (l.warn message meta ts).record = (l.debug message meta ts).record ∧
    (l.error message meta ts).record = (l.debug message meta ts).record ∧
    (l.debug message meta ts).line
      = "[" ++ ts ++ "] [" ++ "DEBUG" ++ "] [" ++ l.requestId ++ "] " ++ message ∧
    (l.info message meta ts).line
      = "[" ++ ts ++ "] [" ++ "INFO" ++ "] [" ++ l.requestId ++ "] " ++ message ∧
    (l.warn message meta ts).line
      = "[" ++ ts ++ "] [" ++ "WARN" ++ "] [" ++ l.requestId ++ "] " ++ message ∧
    (l.error message meta ts).line
      = "[" ++ ts ++ "] [" ++ "ERROR" ++ "] [" ++ l.requestId ++ "] " ++ message := by
  refine ⟨⟨?_, ?_, ?_, ?_, ?_, ?_⟩, rfl, rfl, rfl, ?_, ?_, ?_, ?_⟩
  · intro hnone
    rw [show (l.debug message meta ts).record
        = objSpread [("timestamp", JSValue.string ts),
            ("requestId", JSValue.string l.requestId),
            ("method", JSValue.string l.req.method),
            ("url", JSValue.string l.req.url),
            ("ip", optToJS (jsOrString l.req.ip l.req.socket.remoteAddress))] meta from rfl,
      objGet_objSpread_none meta "timestamp" _ hnone, objGet_cons]
    simp
  · intro hnone
    rw [show (l.debug message meta ts).record
        = objSpread [("timestamp", JSValue.string ts),
            ("requestId", JSValue.string l.requestId),
            ("method", JSValue.string l.req.method),
            ("url", JSValue.string l.req.url),
            ("ip", optToJS (jsOrString l.req.ip l.req.socket.remoteAddress))] meta from rfl,
      objGet_objSpread_none meta "requestId" _ hnone]
    simp [objGet_cons]
  · intro hnone
    rw [show (l.debug message meta ts).record
        = objSpread [("timestamp", JSValue.string ts),
            ("requestId", JSValue.string l.requestId),
            ("method", JSValue.string l.req.method),
            ("url", JSValue.string l.req.url),
            ("ip", optToJS (jsOrString l.req.ip l.req.socket.remoteAddress))] meta from rfl,
      objGet_objSpread_none meta "method" _ hnone]
    simp [objGet_cons]
  · intro hnone
    rw [show (l.debug message meta ts).record
        = objSpread [("timestamp", JSValue.string ts),
            ("requestId", JSValue.string l.requestId),
            ("method", JSValue.string l.req.method),
            ("url", JSValue.string l.req.url),
            ("ip", optToJS (jsOrString l.req.ip l.req.socket.remoteAddress))] meta from rfl,
      objGet_objSpread_none meta "url" _ hnone]
    simp [objGet_cons]
  · intro hnone
    rw [show (l.debug message meta ts).record
        = objSpread [("timestamp", JSValue.string ts),
            ("requestId", JSValue.string l.requestId),
            ("method", JSValue.string l.req.method),
            ("url", JSValue.string l.req.url),
            ("ip", optToJS (jsOrString l.req.ip l.req.socket.remoteAddress))] meta from rfl,
      objGet_objSpread_none meta "ip" _ hnone]
    simp [objGet_cons]
  · intro hnd k v hkv
    exact objGet_objSpread_some meta k v _ hnd hkv
  · have hup : jsToUpperCase "debug" = "DEBUG" := by decide
    simp [Logger.debug, Logger.logWithContext, hup]
  · have hup : jsToUpperCase "info" = "INFO" := by decide
    simp [Logger.info, Logger.logWithContext, hup]
  · have hup : jsToUpperCase "warn" = "WARN" := by decide
    simp [Logger.warn, Logger.logWithContext, hup]
  · have hup : jsToUpperCase "error" = "ERROR" := by decide
    simp [Logger.error, Logger.logWithContext, hup]

/-- Witness for C5 at concrete inputs: an `info`-style record for requestId
`rid` on `sampleReq` with attachment key `foo` and an overriding
`requestId` attachment. -/
theorem logger_emission_shape_witness :
    objGet ((createLogger "rid" sampleReq).debug "hello"
      [("foo", JSValue.number 1)] "T").record "requestId" = some (JSValue.string "rid") ∧
    objGet ((createLogger "rid" sampleReq).debug "hello"
      [("foo", JSValue.number 1)] "T").record "foo" = some (JSValue.number 1) ∧
    objGet ((createLogger "rid" sampleReq).debug "hello"
      [("requestId", JSValue.string "x")] "T").record "requestId"
        = some (JSValue.string "x") ∧
    ((createLogger "rid" sampleReq).debug "hello" [("foo", JSValue.number 1)] "T").line
      = "[" ++ "T" ++ "] [" ++ "DEBUG" ++ "] [" ++ "rid" ++ "] " ++ "hello" := by
  refine ⟨(logger_emission_shape (createLogger "rid" sampleReq) "hello" "T"
      [("foo", JSValue.number 1)]).1.2.1 (by decide),
    (logger_emission_shape (createLogger "rid" sampleReq) "hello" "T"
      [("foo", JSValue.number 1)]).1.2.2.2.2.2 (by decide) "foo" (JSValue.number 1) (by decide),
    (logger_emission_shape (createLogger "rid" sampleReq) "hello" "T"
      [("requestId", JSValue.string "x")]).1.2.2.2.2.2 (by decide) "requestId"
        (JSValue.string "x") (by decide),
    (logger_emission_shape (createLogger "rid" sampleReq) "hello" "T"
      [("foo", JSValue.number 1)]).2.2.2.2.1⟩

/-- Claim C6: `getAllMetadata()` returns a freshly allocated copy of the
live metadata store, so the snapshot's reference differs from the store's
and no sequence of mutations through the snapshot reference changes what
`getMetadata`/`hasMetadata` read from the live store. -/
theorem getAllMetadata_snapshot_independent (h : Heap) (mref : Nat)
    (hm : mref < h.objects.length) (ms : List ObjMutation) (k : String) :
    (getAllMetadataRef h mref).2 ≠ mref ∧
    (applyMutations (getAllMetadataRef h mref).1 (getAllMetadataRef h mref).2 ms).read mref
      = h.read mref ∧
    objGet ((applyMutations (getAllMetadataRef h mref).1
      (getAllMetadataRef h mref).2 ms).read mref) k = objGet (h.read mref) k ∧
    objHas ((applyMutations (getAllMetadataRef h mref).1
      (getAllMetadataRef h mref).2 ms).read mref) k = objHas (h.read mref) k := by
  have hsnap : (getAllMetadataRef h mref).2 = h.objects.length := rfl
  have hne : mref ≠ (getAllMetadataRef h mref).2 := by rw [hsnap]; omega
  have hr : (applyMutations (getAllMetadataRef h mref).1
        (getAllMetadataRef h mref).2 ms).read mref
      = (getAllMetadataRef h mref).1.read mref :=
    read_applyMutations_ne ms _ mref _ hne
  have ha : (getAllMetadataRef h mref).1.read mref = h.read mref :=
    Heap.read_alloc h _ mref hm
  refine ⟨fun hc => hne hc.symm, hr.trans ha, ?_, ?_⟩
  · rw [hr, ha]
  · rw [hr, ha]

/-- Witness for C6 at concrete inputs: a one-object heap whose snapshot is
mutated at key `a` while the live store still reads the original value. -/
theorem getAllMetadata_snapshot_independent_witness :
    (getAllMetadataRef sampleHeap 0).2 ≠ 0 ∧
    objGet ((applyMutations (getAllMetadataRef sampleHeap 0).1
      (getAllMetadataRef sampleHeap 0).2 [ObjMutation.set "a" (JSValue.number 2)]).read 0) "a"
        = objGet (sampleHeap.read 0) "a" :=
  ⟨(getAllMetadata_snapshot_independent sampleHeap 0 (by decide)
      [ObjMutation.set "a" (JSValue.number 2)] "a").1,
   (getAllMetadata_snapshot_independent sampleHeap 0 (by decide)
      [ObjMutation.set "a" (JSValue.number 2)] "a").2.2.1⟩
